import Mathlib

/-!
Verification of the cube-tui core against its specification.

The embedding follows `src/ui/mod.rs` (the session controller / input
dispatcher and the rendering projections that read the statistics state).
The `app` module it calls into (struct `App`, the timer, the statistics
engine and the navigation router) is not part of the provided sources;
those parts are modelled from the specification, and each such definition
is marked `Modelled from the spec:` in its doc comment.

Elapsed times are embedded as rationals (`Rat`): every claim under
verification is structural (ordering, nullability, state transitions,
effect traces) and does not depend on floating-point rounding.
-/

namespace CubeTui

/-- Trimmed average of N (ao5/ao12/ao100/ao1k) over the `n` most recent
entries of `l`: drop the single best and single worst, average the rest.
`none` when fewer than `n` entries exist. Modelled from the spec:
the trailing-average algorithm of the Statistics Engine (the engine's
source is not under `src/`). -/
def aoN (n : Nat) (l : List Rat) : Option Rat :=
  if n ≤ l.length ∧ 2 < n then
    let window := l.drop (l.length - n)
    some ((window.sum - window.foldl min (window.headD 0)
      - window.foldl max (window.headD 0)) / (n - 2 : Nat))
  else
    none

/-- Minimum of a list of rationals, `none` on the empty list. -/
def listMin : List Rat → Option Rat
  | [] => none
  | x :: xs => some (xs.foldl min x)

/-- Maximum of a list of rationals, `none` on the empty list. -/
def listMax : List Rat → Option Rat
  | [] => none
  | x :: xs => some (xs.foldl max x)

/-- One completed solve as stored in the history: the elapsed time and the
trailing averages attached at insertion time (fields `time`, `ao5`, `ao12`
read by `render_times` and `render_chart` in `src/ui/mod.rs`). -/
structure SolveRecord where
  time : Rat
  ao5 : Option Rat
  ao12 : Option Rat
  deriving Repr, DecidableEq

/-- A freshly finished solve as the Timer returns it: elapsed only, stats
not yet attached. -/
def draftRecord (e : Rat) : SolveRecord :=
  { time := e, ao5 := none, ao12 := none }

/-- Modelled from the spec: `gen_stats` (called in `handle_input` as
`t.gen_stats(&app.times.times)`; its body is not under `src/`) fills in the
record's ao5/ao12 from the pre-insertion history plus the record itself
(trailing window ending at the record). -/
def SolveRecord.gen_stats (t : SolveRecord) (prev : List SolveRecord) : SolveRecord :=
  let singles := prev.map (·.time) ++ [t.time]
  { t with ao5 := aoN 5 singles, ao12 := aoN 12 singles }

/-- The statistics-engine state.  Field names follow the accesses visible in
`src/ui/mod.rs`: `times`, `pbsingle`, `pbao5`, `pbao12`, `ao100`, `ao1k`,
`rollingavg` (all read as `Option` by `render_bests`/`render_chart` through
`unwrap_or`/`render_stat`) and `worst`, which `render_chart` reads as a
plain number (`let ymax = app.times.worst;` feeding `bounds([ymin, ymax])`
with no `unwrap`), so it is embedded as a total `Rat`, not an `Option`. -/
structure Times where
  times : List SolveRecord
  pbsingle : Option Rat
  pbao5 : Option Rat
  pbao12 : Option Rat
  ao100 : Option Rat
  ao1k : Option Rat
  rollingavg : Option Rat
  worst : Rat
  deriving Repr, DecidableEq

/-- Modelled from the spec: recomputation of every Aggregate from the
current history (the Statistics Engine recomputes all Aggregates whenever
History changes).  Personal bests are minima of the observed singles /
stored ao5s / stored ao12s; ao100 and ao1k are trailing averages over the
whole current tail; the rolling average is the arithmetic mean of all
singles; `worst` is the maximum single (a total value, `0` with no data,
matching its non-nullable use in `render_chart`). -/
def recomputeAggregates (h : List SolveRecord) (t : Times) : Times :=
  let singles := h.map (·.time)
  { times := h
    pbsingle := listMin singles
    pbao5 := listMin (h.filterMap (·.ao5))
    pbao12 := listMin (h.filterMap (·.ao12))
    ao100 := aoN 100 singles
    ao1k := aoN 1000 singles
    rollingavg :=
      if singles.isEmpty then none else some (singles.sum / (singles.length : Nat))
    worst := (listMax singles).getD t.worst }

/-- Modelled from the spec: the empty statistics state (all Aggregates
`None` until enough data exists; `worst`, being non-nullable, starts at 0). -/
def Times.empty : Times :=
  { times := [], pbsingle := none, pbao5 := none, pbao12 := none,
    ao100 := none, ao1k := none, rollingavg := none, worst := 0 }

/-- Modelled from the spec: `insert` appends the (already annotated) record
to History and recomputes all Aggregates; earlier records are not touched. -/
def Times.insert (ts : Times) (t : SolveRecord) : Times :=
  recomputeAggregates (ts.times ++ [t]) ts

/-- Modelled from the spec: `delete(index)` removes the record at a
forward-chronological History position, recomputes the trailing averages of
every later record whose window included the deleted entry, and recomputes
all Aggregates.  Re-annotating each surviving record from its own preceding
history subsumes "every trailing average whose window included it". -/
def Times.delete (ts : Times) (idx : Nat) : Times :=
  let remaining := ts.times.eraseIdx idx
  let reannotated := remaining.foldl
    (fun acc r => acc ++ [(draftRecord r.time).gen_stats acc]) []
  recomputeAggregates reannotated ts

/-- The statistics state reached by inserting each elapsed time of `l` in
order into an empty engine, annotating each record against the history that
precedes it (the insertion path of `handle_input`). -/
def timesOfElapsed (l : List Rat) : Times :=
  l.foldl (fun ts e => ts.insert ((draftRecord e).gen_stats ts.times)) Times.empty

/-- `Modelled from the spec:` the nullable worst single that claim C1
attributes to the Statistics Engine — the maximum observed single, `None`
until at least one solve exists.  This definition follows the spec's words
("the worst (maximum) single. All are Option/nullable until enough data
exists") and is compared against the code's total `Times.worst`. -/
def worstSpec (h : List SolveRecord) : Option Rat :=
  listMax (h.map (·.time))

/-- The timer state: `running` embeds the source field `on` (renamed here
because `on` is notation in the ambient library) and `lasttime` is the
field of the same name; both are read by `render_timer` (`app.timer.on`,
`app.timer.lasttime`).  `start` is the monotonic-clock sample taken when
the timer started. -/
structure Timer where
  running : Bool
  start : Rat
  lasttime : Option Rat
  deriving Repr, DecidableEq

/-- Modelled from the spec: the Timer's primary-key transition
(`space_press`, called in `handle_input`; its body is not under `src/`).
A press while stopped starts the timer (no record returned); a press while
running stops it, computing `elapsed = now - start` from the monotonic
clock, and returns the finished record draft. -/
def Timer.space_press (tm : Timer) (now : Rat) : Timer × Option SolveRecord :=
  if tm.running then
    let e := now - tm.start
    ({ running := false, start := tm.start, lasttime := some e }, some (draftRecord e))
  else
    ({ running := true, start := now, lasttime := tm.lasttime }, none)

/-- Top-level screens (`Screen::Default` / `Screen::Help`, matched on in
`run`). -/
inductive Screen where
  | default
  | help
  deriving Repr, DecidableEq

/-- The focusable panels (`ActiveBlock` as used by the border/highlight
helpers in `src/ui/mod.rs`). -/
inductive ActiveBlock where
  | help
  | tools
  | timer
  | times
  | scramble
  | stats
  | main
  deriving Repr, DecidableEq

/-- Navigation state (`app.route`): active screen, focused panel, and the
panel currently entered for interaction, if any. -/
structure RouteState where
  screen : Screen
  active_block : ActiveBlock
  selected_block : Option ActiveBlock
  deriving Repr, DecidableEq

/-- The auxiliary tool views (`Tool::Welcome`, `Tool::Chart`, `Tool::Cube`
matched on in `render_main`). -/
inductive Tool where
  | welcome
  | chart
  | cube
  deriving Repr, DecidableEq

/-- Directions for navigation movement (`Dir`, passed to `app.mv`). -/
inductive Dir where
  | left
  | down
  | up
  | right
  deriving Repr, DecidableEq

/-- Modelled from the spec: the fixed adjacency graph of blocks for the 2-D
layout (left column: Help/Tools row, Timer, Times; right column: Scramble,
Stats, Main).  `none` means no neighbor in that direction (no wraparound). -/
def ActiveBlock.neighbor (b : ActiveBlock) (d : Dir) : Option ActiveBlock :=
  match b, d with
  | .help, .right => some .tools
  | .help, .down => some .timer
  | .tools, .left => some .help
  | .tools, .right => some .scramble
  | .tools, .down => some .timer
  | .timer, .up => some .help
  | .timer, .down => some .times
  | .timer, .right => some .scramble
  | .times, .up => some .timer
  | .times, .right => some .main
  | .scramble, .left => some .tools
  | .scramble, .down => some .stats
  | .stats, .up => some .scramble
  | .stats, .down => some .main
  | .stats, .left => some .timer
  | .main, .up => some .stats
  | .main, .left => some .times
  | _, _ => none

/-- Modelled from the spec: `escape()` clears `selected_block` if set, else
is a no-op; when on the Help screen it additionally returns to Default. -/
def RouteState.escape (r : RouteState) : RouteState :=
  let r := if r.selected_block.isSome then { r with selected_block := none } else r
  match r.screen with
  | .help => { r with screen := .default }
  | .default => r

/-- Modelled from the spec: `help()` toggles the Help screen on/off. -/
def RouteState.toggle_help (r : RouteState) : RouteState :=
  match r.screen with
  | .help => { r with screen := .default }
  | .default => { r with screen := .help }

/-- The mutable session state (`App` from the missing `app` module): the
fields are those `src/ui/mod.rs` reads and writes (`timer`, `times`,
`route`, list cursors, `active_tool`, `tick_rate` in milliseconds,
`scramble`), plus the modelled monotonic clock and scramble-generator
seed. -/
structure App where
  timer : Timer
  times : Times
  route : RouteState
  tools_cursor : Nat
  times_cursor : Nat
  active_tool : Tool
  tick_rate : Nat
  scramble : String
  rngSeed : Nat
  now : Rat
  deriving Repr, DecidableEq

/-- Modelled from the spec: the Scramble Generator as an abstract
deterministic function of the random-source state.  No claim under
verification examines the move content of a scramble, only that a fresh one
is requested; the move-validity rules of §4.3 are therefore not embedded. -/
def scrambleOfSeed (seed : Nat) : String :=
  "scramble-" ++ toString seed

/-- Modelled from the spec: `app.new_scramble()` replaces the displayed
scramble with a freshly generated one, advancing the random source. -/
def App.new_scramble (app : App) : App :=
  { app with scramble := scrambleOfSeed app.rngSeed, rngSeed := app.rngSeed + 1 }

/-- Modelled from the spec: `app.esc()` routes the cancel action to the
Navigation Router's `escape`. -/
def App.esc (app : App) : App :=
  { app with route := app.route.escape }

/-- Modelled from the spec: `app.help()` toggles the Help screen. -/
def App.help (app : App) : App :=
  { app with route := app.route.toggle_help }

/-- Modelled from the spec: `app.mv(dir)` — directional movement.  While the
Tools panel is selected, up/down move its list cursor; otherwise the focused
block moves to its neighbor in the adjacency graph if one exists, else
no-op. -/
def App.mv (app : App) (d : Dir) : App :=
  if app.route.selected_block = some ActiveBlock.tools then
    match d with
    | .up => { app with tools_cursor := app.tools_cursor - 1 }
    | .down => { app with tools_cursor := min (app.tools_cursor + 1) 2 }
    | _ => app
  else
    match app.route.active_block.neighbor d with
    | some b => { app with route := { app.route with active_block := b } }
    | none => app

/-- Modelled from the spec: `app.route.enter()` — if no block is selected,
promote the focused block to selected; if Tools is selected, confirm the
list selection as the active tool. -/
def App.enter (app : App) : App :=
  match app.route.selected_block with
  | none =>
    { app with route := { app.route with selected_block := some app.route.active_block } }
  | some ActiveBlock.tools =>
    let tool := match app.tools_cursor with
      | 0 => Tool.welcome
      | 1 => Tool.chart
      | _ => Tool.cube
    { app with active_tool := tool }
  | some _ => app

/-- Modelled from the spec: `app.del()` — the delete action is routed only
while the Times panel is selected; it deletes the record at the cursor's
display row, mapping the reverse-chronological row `i` to the
forward-chronological History index `len - 1 - i`. -/
def App.del (app : App) : App :=
  if app.route.selected_block = some ActiveBlock.times then
    let len := app.times.times.length
    { app with times := app.times.delete (len - 1 - app.times_cursor) }
  else
    app

/-- Key codes distinguished by `handle_input`: character keys, Esc, Enter;
every other code falls through the wildcard arms. -/
inductive KeyCode where
  | char (c : Char)
  | esc
  | enter
  | otherCode
  deriving Repr, DecidableEq

/-- Key modifier flags (crossterm `KeyModifiers` bitflags).
`KeyModifiers::NONE` is the empty set; `KeyModifiers::CONTROL` is the
control bit alone; any other combination falls through the wildcard arm of
the modifier match. -/
structure KeyMods where
  shift : Bool
  control : Bool
  alt : Bool
  deriving Repr, DecidableEq

/-- `KeyModifiers::NONE`. -/
def KeyMods.noMods : KeyMods := ⟨false, false, false⟩

/-- `KeyModifiers::CONTROL`. -/
def KeyMods.ctrlOnly : KeyMods := ⟨false, true, false⟩

/-- A key event as `handle_input` destructures it. -/
structure KeyEvent where
  code : KeyCode
  modifiers : KeyMods
  deriving Repr, DecidableEq

/-- A terminal event: `handle_input` acts only on `Event::Key`; anything
else (resize, mouse, ...) is ignored by the `if let`. -/
inductive Event where
  | key (k : KeyEvent)
  | nonKey
  deriving Repr, DecidableEq

/-- One persisted history entry as parsed from storage: a finite
floating-point seconds value or a non-finite one. -/
inductive RawTime where
  | fin (q : Rat)
  | nonfinite
  deriving Repr, DecidableEq

/-- A persisted record is valid when its elapsed value is finite and
non-negative. -/
def RawTime.valid : RawTime → Bool
  | .fin q => 0 ≤ q
  | .nonfinite => false

/-- The external world `handle_input` and startup touch: the outcome of a
persistence flush and the currently stored history. -/
structure IOEnv where
  writeOk : Bool
  stored : List RawTime
  deriving Repr, DecidableEq

/-- Modelled from the spec: `app.load_times()` — all-or-nothing load.  If
any stored record is malformed (non-finite or negative elapsed) the whole
load fails with a recoverable error and the app is left untouched;
otherwise History is replaced wholesale, each record re-annotated from its
preceding history, and all Aggregates recomputed once. -/
def App.load_times (app : App) (stored : List RawTime) : Except String App :=
  if stored.all RawTime.valid then
    .ok { app with
      times := timesOfElapsed (stored.filterMap fun r =>
        match r with
        | .fin q => some q
        | .nonfinite => none) }
  else
    .error "invalid record in persisted history"

/-- Modelled from the spec: `app.write_times()` — flush History to storage;
fails when the environment's write fails. -/
def App.write_times (_app : App) (env : IOEnv) : Except String Unit :=
  if env.writeOk then .ok () else .error "could not write times"

/-- The externally visible actions an input event triggers, in order:
persistence flush, persistence (re)load, committing a finished solve to the
Statistics Engine, requesting a fresh scramble. -/
inductive Action where
  | writeTimes
  | loadTimes
  | commitRecord
  | newScramble
  deriving Repr, DecidableEq

/-- The outcome of `handle_input`: the returned
`Result<bool, Box<dyn Error>>` (`.ok true` requests exit, an `.error` is
propagated to `run` by `?`), the app state as of the return, and the trace
of externally visible actions performed. -/
structure HandleResult where
  exit : Except String Bool
  app : App
  actions : List Action
  deriving Repr

/-- The quit branch shared by `q`/NONE and `q`/CONTROL:
`app.write_times()?; return Ok(true)` — a write failure propagates as `Err`
after the flush attempt. -/
def quitBranch (env : IOEnv) (app : App) : HandleResult :=
  match app.write_times env with
  | .ok _ => ⟨.ok true, app, [.writeTimes]⟩
  | .error e => ⟨.error e, app, [.writeTimes]⟩

/-- `handle_input` from `src/ui/mod.rs`, lines 58–101: dispatch on the key
event's modifiers and code.  Mirrors the source arm for arm; the Rust
`match` on `key.code` (disjoint literal patterns) is rendered as the
equivalent chain of equality tests.  The wildcard arms (unmapped code under
NONE/CONTROL, any other modifier combination, and non-key events) do
nothing and return `Ok(false)`. -/
def handle_input (ev : Event) (env : IOEnv) (app : App) : HandleResult :=
  match ev with
  | .nonKey => ⟨.ok false, app, []⟩
  | .key k =>
    if k.modifiers = KeyMods.noMods then
      if k.code = KeyCode.char 'q' then
        quitBranch env app
      else if k.code = KeyCode.char ' ' then
        match app.timer.space_press app.now with
        | (tm, some t) =>
          let t := t.gen_stats app.times.times
          let app1 := { app with timer := tm, times := app.times.insert t,
                                 tick_rate := 1000 }
          ⟨.ok false, app1.new_scramble, [.commitRecord, .newScramble]⟩
        | (tm, none) =>
          ⟨.ok false, { app with timer := tm, tick_rate := 100 }, []⟩
      else if k.code = KeyCode.esc then ⟨.ok false, app.esc, []⟩
      else if k.code = KeyCode.enter then ⟨.ok false, app.enter, []⟩
      else if k.code = KeyCode.char 'h' then ⟨.ok false, app.mv .left, []⟩
      else if k.code = KeyCode.char 'j' then ⟨.ok false, app.mv .down, []⟩
      else if k.code = KeyCode.char 'k' then ⟨.ok false, app.mv .up, []⟩
      else if k.code = KeyCode.char 'l' then ⟨.ok false, app.mv .right, []⟩
      else if k.code = KeyCode.char 'd' then ⟨.ok false, app.del, []⟩
      else if k.code = KeyCode.char '?' then ⟨.ok false, app.help, []⟩
      else ⟨.ok false, app, []⟩
    else if k.modifiers = KeyMods.ctrlOnly then
      if k.code = KeyCode.char 'w' then
        match app.write_times env with
        | .error e => ⟨.error e, app, [.writeTimes]⟩
        | .ok _ =>
          match app.load_times env.stored with
          | .ok app1 => ⟨.ok false, app1, [.writeTimes, .loadTimes]⟩
          | .error e => ⟨.error e, app, [.writeTimes, .loadTimes]⟩
      else if k.code = KeyCode.char 'c' then ⟨.ok false, app.esc, []⟩
      else if k.code = KeyCode.char 'q' then
        quitBranch env app
      else ⟨.ok false, app, []⟩
    else
      ⟨.ok false, app, []⟩

/-- The key events whose arm in `handle_input` requests exit: `q` with no
modifiers and `q` with Control alone. -/
def isQuitEvent : Event → Bool
  | .key k => k.code = KeyCode.char 'q' &&
      (k.modifiers = KeyMods.noMods || k.modifiers = KeyMods.ctrlOnly)
  | .nonKey => false

/-- The flush-then-reload event: `w` with Control alone. -/
def isReloadEvent : Event → Bool
  | .key k => k.code = KeyCode.char 'w' && k.modifiers = KeyMods.ctrlOnly
  | .nonKey => false

/-- The events with a non-wildcard arm in `handle_input`'s dispatch. -/
def isMappedEvent : Event → Bool
  | .key k =>
    if k.modifiers = KeyMods.noMods then
      k.code = KeyCode.char 'q' || k.code = KeyCode.char ' ' ||
      k.code = KeyCode.esc || k.code = KeyCode.enter ||
      k.code = KeyCode.char 'h' || k.code = KeyCode.char 'j' ||
      k.code = KeyCode.char 'k' || k.code = KeyCode.char 'l' ||
      k.code = KeyCode.char 'd' || k.code = KeyCode.char '?'
    else if k.modifiers = KeyMods.ctrlOnly then
      k.code = KeyCode.char 'w' || k.code = KeyCode.char 'c' ||
      k.code = KeyCode.char 'q'
    else false
  | .nonKey => false

/-- How `run`'s control loop reacts to a `handle_input` outcome
(`if handle_input(&mut app)? { return Ok(()); }`): `Ok(true)` returns from
`run`, and an `Err` is propagated out of `run` by `?` — either way the loop
terminates; only `Ok(false)` continues it. -/
def HandleResult.terminatesLoop (r : HandleResult) : Bool :=
  match r.exit with
  | .ok b => b
  | .error _ => true

/-- `App::new(Duration::from_millis(1000), path)` followed by nothing else:
the fresh session state before any load.  Modelled from the spec for the
fields the constructor must initialise (empty History, idle timer, default
route, slow tick rate). -/
def App.new : App :=
  { timer := { running := false, start := 0, lasttime := none }
    times := Times.empty
    route := { screen := .default, active_block := .timer, selected_block := none }
    tools_cursor := 0
    times_cursor := 0
    active_tool := .welcome
    tick_rate := 1000
    scramble := scrambleOfSeed 0
    rngSeed := 1
    now := 0 }

/-- What startup (`run`, lines 26–31 of `src/ui/mod.rs`) leads to: either
the control loop is entered with the loaded app, or `run` returns early
with an error — `let mut app = App::new(..)?; app.load_times()?;` propagates
every load error with `?` before the loop is reached. -/
inductive StartupOutcome where
  | enteredLoop (app : App)
  | aborted (msg : String)
  deriving Repr, DecidableEq

/-- The startup path of `run`: create the app, then `app.load_times()?`.
An `Err` from the load aborts `run` before the control loop. -/
def runStartup (env : IOEnv) : StartupOutcome :=
  match App.new.load_times env.stored with
  | .ok app => .enteredLoop app
  | .error e => .aborted e

/-- One row of the times table as `render_times` produces it, before string
formatting (a presentation-only step): the `i` column label and the record
whose time/ao5/ao12 fill the remaining cells. -/
structure TimesRow where
  label : Nat
  entry : SolveRecord
  deriving Repr, DecidableEq

/-- The row list built by `render_times` (lines 225–242): iterate the
history reversed (`app.times.times.iter().rev().enumerate()`), labelling
row `i` with `numrows - i`. -/
def renderTimesRows (ts : List SolveRecord) : List TimesRow :=
  let numrows := ts.length
  ts.reverse.enum.map fun p => ⟨numrows - p.1, p.2⟩

/-- The six nullable statistics `render_bests` (lines 293–298) displays via
`render_stat`, each shown as "n/a" while `None`. -/
def renderBests (t : Times) : List (String × Option Rat) :=
  [("PB Single", t.pbsingle), ("PB ao5", t.pbao5), ("PB ao12", t.pbao12),
   ("ao100", t.ao100), ("ao1k", t.ao1k), ("avg", t.rollingavg)]

/-- The chart's y-axis bounds in `render_chart` (lines 414–415):
`ymin = pbsingle.unwrap_or(0.0)` but `ymax = app.times.worst` with no
unwrap — `worst` is consumed as a total value. -/
def chartYBounds (t : Times) : Rat × Rat :=
  (t.pbsingle.getD 0, t.worst)

/-- Whether startup reached the control loop. -/
def StartupOutcome.enteredControlLoop : StartupOutcome → Bool
  | .enteredLoop _ => true
  | .aborted _ => false

/-- The history list alone, built the way the insertion path builds it:
each record annotated against the records before it. -/
def histOf (l : List Rat) : List SolveRecord :=
  l.foldl (fun h e => h ++ [(draftRecord e).gen_stats h]) []

/-- A concrete session state whose timer is running (started at 2, clock
now at 10), used to evaluate the theorems about completing a solve. -/
def appRunning : App :=
  { App.new with timer := { running := true, start := 2, lasttime := none }, now := 10 }

/-- A concrete session state with two recorded solves and the Times panel
selected with its cursor on the top (most recent) row. -/
def appWithTimes : App :=
  { App.new with
      times := timesOfElapsed [3, 4]
      route := { screen := .default, active_block := .times,
                 selected_block := some .times }
      times_cursor := 0 }

/-! ### Infrastructure lemmas -/

theorem Times.insert_times (ts : Times) (t : SolveRecord) :
    (ts.insert t).times = ts.times ++ [t] := rfl

theorem timesOf_foldl_times (l : List Rat) (ts : Times) :
    (l.foldl (fun ts e => ts.insert ((draftRecord e).gen_stats ts.times)) ts).times =
      l.foldl (fun h e => h ++ [(draftRecord e).gen_stats h]) ts.times := by
  induction l generalizing ts with
  | nil => rfl
  | cons e l ih =>
    simp only [List.foldl_cons]
    rw [ih]
    rfl

theorem timesOfElapsed_times (l : List Rat) :
    (timesOfElapsed l).times = histOf l :=
  timesOf_foldl_times l Times.empty

theorem histOf_concat (l : List Rat) (e : Rat) :
    histOf (l ++ [e]) = histOf l ++ [(draftRecord e).gen_stats (histOf l)] := by
  simp [histOf, List.foldl_append]

theorem timesOfElapsed_concat (l : List Rat) (e : Rat) :
    timesOfElapsed (l ++ [e]) =
      recomputeAggregates (histOf (l ++ [e])) (timesOfElapsed l) := by
  have h1 : timesOfElapsed (l ++ [e]) =
      (timesOfElapsed l).insert ((draftRecord e).gen_stats (timesOfElapsed l).times) := by
    simp [timesOfElapsed, List.foldl_append]
  rw [h1, Times.insert, timesOfElapsed_times, ← histOf_concat]

theorem gen_stats_time (t : SolveRecord) (h : List SolveRecord) :
    (t.gen_stats h).time = t.time := rfl

theorem histOf_map_time (l : List Rat) : (histOf l).map (·.time) = l := by
  induction l using List.reverseRecOn with
  | nil => rfl
  | append_singleton l e ih =>
    rw [histOf_concat]
    simp [ih, gen_stats_time, draftRecord]

theorem histOf_length (l : List Rat) : (histOf l).length = l.length := by
  have := congrArg List.length (histOf_map_time l)
  simpa using this

theorem listMin_eq_none_iff (xs : List Rat) : listMin xs = none ↔ xs = [] := by
  cases xs <;> simp [listMin]

theorem aoN_eq_none_iff (n : Nat) (l : List Rat) (hn : 2 < n) :
    aoN n l = none ↔ l.length < n := by
  simp only [aoN]
  split_ifs with h
  · obtain ⟨h1, h2⟩ := h
    simp only [reduceCtorEq, false_iff]
    omega
  · simp only [true_iff]
    have hle : ¬ n ≤ l.length := fun hle => h ⟨hle, hn⟩
    omega

theorem histOf_all_proj_none (f : SolveRecord → Option Rat) (n : Nat) (hn : 2 < n)
    (hf : ∀ (h : List SolveRecord) (e : Rat),
      f ((draftRecord e).gen_stats h) = aoN n (h.map (·.time) ++ [e]))
    (l : List Rat) :
    (∀ r ∈ histOf l, f r = none) ↔ l.length < n := by
  induction l using List.reverseRecOn with
  | nil =>
    constructor
    · intro _
      exact Nat.lt_of_le_of_lt (Nat.zero_le 2) hn
    · intro _ r hr
      exact absurd hr (by simp [histOf])
  | append_singleton l e ih =>
    rw [histOf_concat, List.forall_mem_append, List.forall_mem_singleton, ih,
      hf, histOf_map_time, aoN_eq_none_iff _ _ hn]
    simp only [List.length_append, List.length_singleton]
    omega

theorem recompute_pbsingle (h : List SolveRecord) (t : Times) :
    (recomputeAggregates h t).pbsingle = listMin (h.map (·.time)) := rfl

theorem recompute_pbao5 (h : List SolveRecord) (t : Times) :
    (recomputeAggregates h t).pbao5 = listMin (h.filterMap (·.ao5)) := rfl

theorem recompute_pbao12 (h : List SolveRecord) (t : Times) :
    (recomputeAggregates h t).pbao12 = listMin (h.filterMap (·.ao12)) := rfl

theorem recompute_ao100 (h : List SolveRecord) (t : Times) :
    (recomputeAggregates h t).ao100 = aoN 100 (h.map (·.time)) := rfl

theorem recompute_ao1k (h : List SolveRecord) (t : Times) :
    (recomputeAggregates h t).ao1k = aoN 1000 (h.map (·.time)) := rfl

theorem recompute_rollingavg (h : List SolveRecord) (t : Times) :
    (recomputeAggregates h t).rollingavg =
      if (h.map (·.time)).isEmpty then none
      else some ((h.map (·.time)).sum / ((h.map (·.time)).length : Nat)) := rfl

theorem recompute_worst (h : List SolveRecord) (t : Times) :
    (recomputeAggregates h t).worst = (listMax (h.map (·.time))).getD t.worst := rfl

/-! ### Claim C1 -/

/-- C1, counterexample.  With no data all six Option aggregates read by
`render_bests` are `None`, and a nullable worst would be `None` too
(`worstSpec [] = none`) — but the code's `worst` is a total value,
`some`-distinct from the nullable spec reading, and `render_chart` consumes
it unconditionally as the y-axis upper bound (`chartYBounds` = `(0, 0)`).
The worst single is therefore not "an Option/nullable value that is None
until its minimum sample-size precondition is met". -/
theorem C1_counterexample_worst_not_nullable :
    (timesOfElapsed []).pbsingle = none ∧
    (timesOfElapsed []).rollingavg = none ∧
    worstSpec (timesOfElapsed []).times = none ∧
    some (timesOfElapsed []).worst ≠ worstSpec (timesOfElapsed []).times ∧
    chartYBounds (timesOfElapsed []) = (0, 0) := by
  decide

/-- C1, amended: the six Aggregates `pbsingle`, `pbao5`, `pbao12`, `ao100`,
`ao1k` and `rollingavg` are Option values that are `None` exactly until
their minimum sample-size precondition is met (1, 5, 12, 100, 1000 and 1
solves respectively); the worst (maximum) single is not nullable — it is a
plain number equal to the maximum single once data exists and `0` before
that. -/
theorem C1_amended_aggregates_nullability (l : List Rat) :
    ((timesOfElapsed l).pbsingle = none ↔ l.length < 1) ∧
    ((timesOfElapsed l).pbao5 = none ↔ l.length < 5) ∧
    ((timesOfElapsed l).pbao12 = none ↔ l.length < 12) ∧
    ((timesOfElapsed l).ao100 = none ↔ l.length < 100) ∧
    ((timesOfElapsed l).ao1k = none ↔ l.length < 1000) ∧
    ((timesOfElapsed l).rollingavg = none ↔ l.length < 1) ∧
    (timesOfElapsed l).worst = (listMax l).getD 0 := by
  rcases List.eq_nil_or_concat' l with rfl | ⟨l', e, rfl⟩
  · decide
  · rw [timesOfElapsed_concat]
    refine ⟨?_, ?_, ?_, ?_, ?_, ?_, ?_⟩
    · rw [recompute_pbsingle, histOf_map_time, listMin_eq_none_iff]
      simp
    · rw [recompute_pbao5, listMin_eq_none_iff, List.filterMap_eq_nil_iff,
        histOf_all_proj_none (fun r => r.ao5) 5 (by omega) (fun h e => rfl)]
    · rw [recompute_pbao12, listMin_eq_none_iff, List.filterMap_eq_nil_iff,
        histOf_all_proj_none (fun r => r.ao12) 12 (by omega) (fun h e => rfl)]
    · rw [recompute_ao100, histOf_map_time, aoN_eq_none_iff _ _ (by omega)]
    · rw [recompute_ao1k, histOf_map_time, aoN_eq_none_iff _ _ (by omega)]
    · rw [recompute_rollingavg, histOf_map_time]
      simp
    · rw [recompute_worst, histOf_map_time]
      rcases l' with _ | ⟨a, t⟩ <;> simp [listMax]

/-! ### Claim C2 -/

/-- C2, counterexample.  One malformed record among nine valid ones makes
`load_times` fail — but `run` propagates that error with `?`
(`app.load_times()?`, line 31), so the program aborts before the control
loop instead of entering it with a non-fatal notice. -/
theorem C2_counterexample_load_error_is_fatal :
    runStartup ⟨true,
        [RawTime.fin 1, RawTime.fin 2, RawTime.fin 3, RawTime.fin 4, RawTime.fin 5,
         RawTime.fin 6, RawTime.fin 7, RawTime.fin 8, RawTime.fin 9, RawTime.nonfinite]⟩ =
      .aborted "invalid record in persisted history" ∧
    (runStartup ⟨true,
        [RawTime.fin 1, RawTime.fin 2, RawTime.fin 3, RawTime.fin 4, RawTime.fin 5,
         RawTime.fin 6, RawTime.fin 7, RawTime.fin 8, RawTime.fin 9, RawTime.nonfinite]⟩
      ).enteredControlLoop = false := by
  constructor <;> rfl

/-- C2, amended: any malformed persisted record (non-finite or negative
elapsed) makes `load` reject the whole history with a recoverable error and
no partial application — the load is all-or-nothing — but `run` propagates
the load error with `?`, so the program aborts at startup instead of
entering the control loop with an empty History and a non-fatal notice. -/
theorem C2_amended_load_all_or_nothing (env : IOEnv) (r : RawTime)
    (hmem : r ∈ env.stored) (hr : r.valid = false) :
    App.new.load_times env.stored = .error "invalid record in persisted history" ∧
    runStartup env = .aborted "invalid record in persisted history" ∧
    (runStartup env).enteredControlLoop = false := by
  have hcond : ¬ (env.stored.all RawTime.valid = true) := by
    intro hb
    rw [List.all_eq_true] at hb
    have h2 := hb r hmem
    rw [hr] at h2
    cases h2
  have hload : App.new.load_times env.stored = .error "invalid record in persisted history" := by
    unfold App.load_times
    rw [if_neg hcond]
  refine ⟨hload, ?_, ?_⟩
  · unfold runStartup
    rw [hload]
  · unfold runStartup
    rw [hload]
    rfl

/-- C2, witness: the amended theorem applied to the §8 scenario (nine valid
records and one malformed). -/
theorem C2_witness_malformed_record :
    runStartup ⟨true,
        [RawTime.fin 1, RawTime.fin 2, RawTime.fin 3, RawTime.fin 4, RawTime.fin 5,
         RawTime.fin 6, RawTime.fin 7, RawTime.fin 8, RawTime.fin 9,
         RawTime.fin (-1)]⟩ =
      .aborted "invalid record in persisted history" :=
  (C2_amended_load_all_or_nothing
    ⟨true,
      [RawTime.fin 1, RawTime.fin 2, RawTime.fin 3, RawTime.fin 4, RawTime.fin 5,
       RawTime.fin 6, RawTime.fin 7, RawTime.fin 8, RawTime.fin 9,
       RawTime.fin (-1)]⟩
    (RawTime.fin (-1)) (by decide) (by decide)).2.1

/-! ### More infrastructure lemmas -/

theorem quitBranch_exit (env : IOEnv) (app : App) :
    (quitBranch env app).exit =
      if env.writeOk then Except.ok true else Except.error "could not write times" := by
  rcases env with ⟨wo, st⟩
  cases wo <;> rfl

theorem get?_reverse_of_lt (l : List SolveRecord) (i : Nat) (h : i < l.length) :
    l.reverse.get? i = l.get? (l.length - 1 - i) := by
  rw [List.get?_eq_getElem?, List.get?_eq_getElem?, List.getElem?_reverse h]

theorem renderTimesRows_get? (ts : List SolveRecord) (i : Nat) (hi : i < ts.length) :
    (renderTimesRows ts).get? i =
      (ts.get? (ts.length - 1 - i)).map (fun t => ⟨ts.length - i, t⟩) := by
  unfold renderTimesRows
  rw [List.get?_map, List.get?_enum, get?_reverse_of_lt ts i hi]
  cases ts.get? (ts.length - 1 - i) <;> rfl

theorem reannotate_eq_histOf (rs : List SolveRecord) :
    rs.foldl (fun acc r => acc ++ [(draftRecord r.time).gen_stats acc]) [] =
      histOf (rs.map (·.time)) := by
  rw [histOf, List.foldl_map]

/-! ### Claim C3 -/

/-- C3: completing a solve with the primary action key appends to History a
single new record whose `ao5`/`ao12` are computed from the pre-insertion
history (the trailing window ending at the new record); the earlier
records are carried over unchanged — no retroactive recomputation. -/
theorem C3_insertion_time_stats (app : App) (env : IOEnv)
    (h : app.timer.running = true) :
    (handle_input (.key ⟨.char ' ', KeyMods.noMods⟩) env app).app.times.times =
      app.times.times ++
        [{ time := app.now - app.timer.start,
           ao5 := aoN 5 (app.times.times.map (·.time) ++ [app.now - app.timer.start]),
           ao12 := aoN 12 (app.times.times.map (·.time) ++ [app.now - app.timer.start]) }] ∧
    (handle_input (.key ⟨.char ' ', KeyMods.noMods⟩) env app).app.times.times.take
        app.times.times.length = app.times.times := by
  have h1 : (handle_input (.key ⟨.char ' ', KeyMods.noMods⟩) env app).app.times.times =
      app.times.times ++ [(draftRecord (app.now - app.timer.start)).gen_stats app.times.times] := by
    simp [handle_input, Timer.space_press, h, Times.insert_times, App.new_scramble]
  constructor
  · rw [h1]
    rfl
  · rw [h1, List.take_left]

/-- C3, witness: starting from a running timer (start 2, now 10) over an
empty history, the new record has elapsed 8 and `None` averages. -/
theorem C3_witness_first_solve :
    (handle_input (.key ⟨.char ' ', KeyMods.noMods⟩) ⟨true, []⟩ appRunning).app.times.times =
      appRunning.times.times ++
        [{ time := appRunning.now - appRunning.timer.start,
           ao5 := aoN 5 (appRunning.times.times.map (·.time) ++
             [appRunning.now - appRunning.timer.start]),
           ao12 := aoN 12 (appRunning.times.times.map (·.time) ++
             [appRunning.now - appRunning.timer.start]) }] :=
  (C3_insertion_time_stats appRunning ⟨true, []⟩ rfl).1

/-! ### Claim C4 -/

/-- C4: a primary-key press that completes a solve (timer running) commits
the finished record to the Statistics Engine and then requests a new
scramble, in that order, within the handling of that one key event. -/
theorem C4_commit_then_new_scramble (app : App) (env : IOEnv)
    (h : app.timer.running = true) :
    (handle_input (.key ⟨.char ' ', KeyMods.noMods⟩) env app).actions =
      [Action.commitRecord, Action.newScramble] ∧
    (handle_input (.key ⟨.char ' ', KeyMods.noMods⟩) env app).app.times.times.length =
      app.times.times.length + 1 ∧
    (handle_input (.key ⟨.char ' ', KeyMods.noMods⟩) env app).app.scramble =
      scrambleOfSeed app.rngSeed := by
  refine ⟨?_, ?_, ?_⟩ <;>
    simp [handle_input, Timer.space_press, h, Times.insert_times, App.new_scramble]

/-- C4, witness: the completed-solve action trace at a concrete running
state. -/
theorem C4_witness_action_trace :
    (handle_input (.key ⟨.char ' ', KeyMods.noMods⟩) ⟨true, []⟩ appRunning).actions =
      [Action.commitRecord, Action.newScramble] :=
  (C4_commit_then_new_scramble appRunning ⟨true, []⟩ rfl).1

/-! ### Claim C5 -/

/-- C5: the primary action key sets the session tick rate from the timer's
resulting state — 100 ms (fast re-poll) when the press starts the timer
running (no record returned), 1000 ms when the press completes a solve (a
record is returned). -/
theorem C5_tick_rate_follows_timer (app : App) (env : IOEnv) :
    (app.timer.running = false →
      (handle_input (.key ⟨.char ' ', KeyMods.noMods⟩) env app).app.tick_rate = 100 ∧
      (handle_input (.key ⟨.char ' ', KeyMods.noMods⟩) env app).app.timer.running = true) ∧
    (app.timer.running = true →
      (handle_input (.key ⟨.char ' ', KeyMods.noMods⟩) env app).app.tick_rate = 1000) := by
  constructor <;> intro h <;>
    simp [handle_input, Timer.space_press, h, App.new_scramble]

/-- C5, witness: both tick-rate outcomes evaluated at concrete states. -/
theorem C5_witness_tick_rates :
    (handle_input (.key ⟨.char ' ', KeyMods.noMods⟩) ⟨true, []⟩ App.new).app.tick_rate = 100 ∧
    (handle_input (.key ⟨.char ' ', KeyMods.noMods⟩) ⟨true, []⟩ appRunning).app.tick_rate = 1000 :=
  ⟨((C5_tick_rate_follows_timer App.new ⟨true, []⟩).1 rfl).1,
   (C5_tick_rate_follows_timer appRunning ⟨true, []⟩).2 rfl⟩

/-! ### Claim C6 -/

/-- C6: the times table shows History reverse-chronologically — the row at
display index `i` is the record at forward index `len - 1 - i`, labelled
`len - i` (labels count down from `len`) — and deleting at display row `i`
(Times selected, cursor on `i`) removes exactly that forward History index
and rebuilds the statistics state: every surviving record's trailing
averages are recomputed from its own preceding history and every Aggregate
is recomputed from the remaining records. -/
theorem C6_reverse_display_and_delete (app : App) (i : Nat)
    (hi : i < app.times.times.length)
    (hsel : app.route.selected_block = some ActiveBlock.times)
    (hcur : app.times_cursor = i) :
    (renderTimesRows app.times.times).length = app.times.times.length ∧
    (renderTimesRows app.times.times).get? i =
      (app.times.times.get? (app.times.times.length - 1 - i)).map
        (fun t => ⟨app.times.times.length - i, t⟩) ∧
    app.del.times =
      recomputeAggregates
        ((app.times.times.eraseIdx (app.times.times.length - 1 - i)).foldl
          (fun acc r => acc ++ [(draftRecord r.time).gen_stats acc]) []) app.times ∧
    app.del.times.times.map (·.time) =
      (app.times.times.eraseIdx (app.times.times.length - 1 - i)).map (·.time) := by
  have hdel : app.del.times =
      recomputeAggregates
        ((app.times.times.eraseIdx (app.times.times.length - 1 - i)).foldl
          (fun acc r => acc ++ [(draftRecord r.time).gen_stats acc]) []) app.times := by
    unfold App.del
    rw [if_pos hsel, hcur]
    rfl
  refine ⟨?_, renderTimesRows_get? _ _ hi, hdel, ?_⟩
  · simp [renderTimesRows]
  · rw [hdel]
    show ((app.times.times.eraseIdx (app.times.times.length - 1 - i)).foldl
        (fun acc r => acc ++ [(draftRecord r.time).gen_stats acc]) []).map (·.time) = _
    rw [reannotate_eq_histOf, histOf_map_time]

/-- C6, witness: the display/delete mapping evaluated with two recorded
solves and the cursor on the top row. -/
theorem C6_witness_two_solves :
    (renderTimesRows appWithTimes.times.times).get? 0 =
      (appWithTimes.times.times.get? (appWithTimes.times.times.length - 1 - 0)).map
        (fun t => ⟨appWithTimes.times.times.length - 0, t⟩) :=
  (C6_reverse_display_and_delete appWithTimes 0 (by decide) rfl rfl).2.1

/-! ### Claim C7 -/

/-- C7: on either quit key (`q` with no modifiers or Ctrl-q) the persisted
history is flushed (the write action precedes the return), and the control
loop terminates whether or not the write succeeds: on success the handler
returns `Ok(true)`; on failure it surfaces the error, which `run`
propagates — `terminatesLoop` is true either way. -/
theorem C7_quit_flushes_then_exits (app : App) (env : IOEnv) (mods : KeyMods)
    (hm : mods = KeyMods.noMods ∨ mods = KeyMods.ctrlOnly) :
    (handle_input (.key ⟨.char 'q', mods⟩) env app).actions = [Action.writeTimes] ∧
    (handle_input (.key ⟨.char 'q', mods⟩) env app).terminatesLoop = true ∧
    (env.writeOk = true →
      (handle_input (.key ⟨.char 'q', mods⟩) env app).exit = .ok true) ∧
    (env.writeOk = false →
      (handle_input (.key ⟨.char 'q', mods⟩) env app).exit =
        .error "could not write times") := by
  rcases env with ⟨wo, st⟩
  rcases hm with rfl | rfl <;> cases wo <;>
    simp [handle_input, quitBranch, App.write_times, HandleResult.terminatesLoop]

/-- C7, witness: quitting with a failing flush still flushes first and still
terminates the loop. -/
theorem C7_witness_quit_with_failing_write :
    (handle_input (.key ⟨.char 'q', KeyMods.noMods⟩) ⟨false, []⟩ App.new).actions =
      [Action.writeTimes] ∧
    (handle_input (.key ⟨.char 'q', KeyMods.noMods⟩) ⟨false, []⟩ App.new).terminatesLoop =
      true :=
  ⟨(C7_quit_flushes_then_exits App.new ⟨false, []⟩ KeyMods.noMods (Or.inl rfl)).1,
   (C7_quit_flushes_then_exits App.new ⟨false, []⟩ KeyMods.noMods (Or.inl rfl)).2.1⟩

/-! ### Claim C8 -/

/-- C8: Ctrl-C is handled identically to the Esc key — it routes to the
Navigation Router's escape, changes nothing else, performs no I/O and tells
the control loop to continue (`Ok(false)`); it never quits. -/
theorem C8_ctrl_c_escapes_not_quits (app : App) (env : IOEnv) :
    handle_input (.key ⟨.char 'c', KeyMods.ctrlOnly⟩) env app =
      handle_input (.key ⟨KeyCode.esc, KeyMods.noMods⟩) env app ∧
    handle_input (.key ⟨.char 'c', KeyMods.ctrlOnly⟩) env app =
      ⟨.ok false, app.esc, []⟩ := by
  constructor <;> rfl

/-! ### Claim C9 -/

/-- C9, counterexample: Ctrl-W with a failing flush is a key event other
than the two quit keys for which the handler does not return false — it
returns the propagated write error instead (which `run`'s `?` also turns
into loop termination). -/
theorem C9_counterexample_reload_error :
    (handle_input (.key ⟨.char 'w', KeyMods.ctrlOnly⟩) ⟨false, []⟩ App.new).exit =
      .error "could not write times" ∧
    isQuitEvent (.key ⟨.char 'w', KeyMods.ctrlOnly⟩) = false := by
  constructor <;> rfl

set_option maxHeartbeats 2000000 in
/-- C9, amended: the handler returns `Ok(true)` exactly for the quit keys
(`q` no-modifiers / Ctrl-q) with a successful flush; every other key event
returns `Ok(false)`, except Ctrl-W, whose flush/reload failures surface as
`Err` (never `Ok(true)`), which the control loop also treats as exit via
`?`. -/
theorem C9_amended_exit_only_on_quit (ev : Event) (env : IOEnv) (app : App) :
    ((handle_input ev env app).exit = .ok true ↔
      (isQuitEvent ev = true ∧ env.writeOk = true)) ∧
    (isQuitEvent ev = false → isReloadEvent ev = false →
      (handle_input ev env app).exit = .ok false) := by
  rcases ev with ⟨code, mods⟩ | _
  case _ =>
    constructor
    · simp only [handle_input]
      split_ifs with h1 h2 h3 h4 h5 h6 h7 h8 h9 h10 h11 h12 h13 h14 h15
      · rw [quitBranch_exit]
        cases hw : env.writeOk <;> simp [isQuitEvent, h1, h2]
      · rcases hsp : app.timer.space_press app.now with ⟨tm, t⟩
        rcases t with _ | t <;> simp [hsp, isQuitEvent, h3]
      · simp [isQuitEvent, h4]
      · simp [isQuitEvent, h5]
      · simp [isQuitEvent, h6]
      · simp [isQuitEvent, h7]
      · simp [isQuitEvent, h8]
      · simp [isQuitEvent, h9]
      · simp [isQuitEvent, h10]
      · simp [isQuitEvent, h11]
      · simp [isQuitEvent, h2]
      · rcases hwt : app.write_times env with e | u
        · simp [hwt, isQuitEvent, h13]
        · rcases hl : app.load_times env.stored with e | app1 <;>
            simp [hwt, hl, isQuitEvent, h13]
      · simp [isQuitEvent, h14]
      · rw [quitBranch_exit]
        cases hw : env.writeOk <;> simp [isQuitEvent, h15, h12]
      · simp [isQuitEvent, h15]
      · simp [isQuitEvent, h1, h12]
    · intro hq hr
      simp only [handle_input]
      split_ifs with h1 h2 h3 h4 h5 h6 h7 h8 h9 h10 h11 h12 h13 h14 h15
      · rw [isQuitEvent] at hq
        simp [h1, h2] at hq
      · rcases hsp : app.timer.space_press app.now with ⟨tm, t⟩
        rcases t with _ | t <;> simp [hsp]
      · rfl
      · rfl
      · rfl
      · rfl
      · rfl
      · rfl
      · rfl
      · rfl
      · rfl
      · rw [isReloadEvent] at hr
        simp [h12, h13] at hr
      · rfl
      · rw [isQuitEvent] at hq
        simp [h12, h15] at hq
      · rfl
      · rfl
  case _ =>
    simp [handle_input, isQuitEvent]

/-- C9, witness: a non-quit, non-reload key (Esc) returns `Ok(false)`. -/
theorem C9_witness_esc_continues :
    (handle_input (.key ⟨KeyCode.esc, KeyMods.noMods⟩) ⟨true, []⟩ App.new).exit =
      .ok false :=
  (C9_amended_exit_only_on_quit (.key ⟨KeyCode.esc, KeyMods.noMods⟩) ⟨true, []⟩ App.new).2
    rfl rfl

/-! ### Claim C10 -/

set_option maxHeartbeats 2000000 in
/-- C10: any event without a dispatch arm — a character with no mapped
effect, any key under modifier combinations other than exactly NONE or
exactly CONTROL, or a non-key event — is a complete no-op: the handler
returns `Ok(false)`, leaves the entire `App` (timer, history, aggregates,
route, tool selection, tick rate, scramble) unchanged, and performs no
I/O (empty action trace). -/
theorem C10_unmapped_event_is_noop (ev : Event) (env : IOEnv) (app : App)
    (h : isMappedEvent ev = false) :
    handle_input ev env app = ⟨.ok false, app, []⟩ := by
  rcases ev with ⟨code, mods⟩ | _
  case _ =>
    simp only [isMappedEvent] at h
    simp only [handle_input]
    split_ifs with h1 h2 h3 h4 h5 h6 h7 h8 h9 h10 h11 h12 h13 h14 h15
    · exact absurd h (by simp [h1, h2])
    · exact absurd h (by simp [h1, h3])
    · exact absurd h (by simp [h1, h4])
    · exact absurd h (by simp [h1, h5])
    · exact absurd h (by simp [h1, h6])
    · exact absurd h (by simp [h1, h7])
    · exact absurd h (by simp [h1, h8])
    · exact absurd h (by simp [h1, h9])
    · exact absurd h (by simp [h1, h10])
    · exact absurd h (by simp [h1, h11])
    · rfl
    · exact absurd h (by simp [h1, h12, h13, KeyMods.ctrlOnly, KeyMods.noMods])
    · exact absurd h (by simp [h1, h12, h14, KeyMods.ctrlOnly, KeyMods.noMods])
    · exact absurd h (by simp [h1, h12, h15, KeyMods.ctrlOnly, KeyMods.noMods])
    · rfl
    · rfl
  case _ => rfl

/-- C10, witness: the unmapped key `x` leaves everything unchanged. -/
theorem C10_witness_unmapped_x :
    handle_input (.key ⟨.char 'x', KeyMods.noMods⟩) ⟨true, []⟩ App.new =
      ⟨.ok false, App.new, []⟩ :=
  C10_unmapped_event_is_noop (.key ⟨.char 'x', KeyMods.noMods⟩) ⟨true, []⟩ App.new
    (by decide)

end CubeTui
